import Mathlib

/-
  Verification of the larender LaTeX parsing pipeline (lexer.ts, parser.ts,
  ast.ts).  The TypeScript source is embedded shallowly: the mutable lexer
  becomes explicit state passing, the mutable tree with stack references into
  it becomes a pure tree plus stacks of paths, and thrown exceptions become
  an Except monad.
-/

set_option maxRecDepth 10000

namespace Larender

/-- Lexeme kinds.  In the TypeScript source `TokenType` is a string enum and
`getTokenTypeFromCommand` casts an arbitrary command string into it without
validation, so at runtime a token type is simply a string. -/
abbrev TokenType := String

def TokenType.Unknown : TokenType := "Unknown"

def TokenType.Number : TokenType := "Number"

def TokenType.Alphabet : TokenType := "Alphabet"

def TokenType.Subscript : TokenType := "_"

def TokenType.Superscript : TokenType := "^"

def TokenType.Plus : TokenType := "+"

def TokenType.Minus : TokenType := "-"

def TokenType.PlusMinus : TokenType := "\\pm"

def TokenType.Modulus : TokenType := "\\mod"

def TokenType.Percent : TokenType := "\\%"

def TokenType.Times : TokenType := "\\times"

def TokenType.Divide : TokenType := "\\div"

def TokenType.Equals : TokenType := "="

def TokenType.Equivalent : TokenType := "\\equiv"

def TokenType.SquareRoot : TokenType := "\\sqrt"

def TokenType.Dfrac : TokenType := "\\dfrac"

def TokenType.LessThan : TokenType := "<"

def TokenType.GreaterThan : TokenType := ">"

def TokenType.LessThanOrEqual : TokenType := "\\leq"

def TokenType.GreaterThanOrEqual : TokenType := "\\geq"

def TokenType.Angle : TokenType := "\\angle"

def TokenType.Triangle : TokenType := "\\triangle"

def TokenType.Circle : TokenType := "\\circ"

def TokenType.Sim : TokenType := "\\sim"

def TokenType.Simeq : TokenType := "\\simeq"

def TokenType.Square : TokenType := "\\square"

def TokenType.Bottom : TokenType := "\\bot"

def TokenType.LParen : TokenType := "("

def TokenType.RParen : TokenType := ")"

def TokenType.LBracket : TokenType := "["

def TokenType.RBracket : TokenType := "]"

def TokenType.LBrace : TokenType := "\x7b"

def TokenType.RBrace : TokenType := "\x7d"

def TokenType.Comma : TokenType := ","

def TokenType.Period : TokenType := "."

def TokenType.Cdot : TokenType := "\\cdot"

def TokenType.Cdots : TokenType := "\\cdots"

def TokenType.Colon : TokenType := ":"

def TokenType.Semicolon : TokenType := ";"

def TokenType.Alpha : TokenType := "\\alpha"

def TokenType.Beta : TokenType := "\\beta"

def TokenType.Gamma : TokenType := "\\gamma"

def TokenType.Delta : TokenType := "\\delta"

def TokenType.Epsilon : TokenType := "\\epsilon"

def TokenType.Zeta : TokenType := "\\zeta"

def TokenType.Eta : TokenType := "\\eta"

def TokenType.Theta : TokenType := "\\theta"

def TokenType.Iota : TokenType := "\\iota"

def TokenType.Kappa : TokenType := "\\kappa"

def TokenType.Lambda : TokenType := "\\lambda"

def TokenType.Mu : TokenType := "\\mu"

def TokenType.Nu : TokenType := "\\nu"

def TokenType.Xi : TokenType := "\\xi"

def TokenType.Omicron : TokenType := "o"

def TokenType.Pi : TokenType := "\\pi"

def TokenType.Rho : TokenType := "\\rho"

def TokenType.Sigma : TokenType := "\\sigma"

def TokenType.Tau : TokenType := "\\tau"

def TokenType.Upsilon : TokenType := "\\upsilon"

def TokenType.Phi : TokenType := "\\phi"

def TokenType.Chi : TokenType := "\\chi"

def TokenType.Psi : TokenType := "\\psi"

def TokenType.Omega : TokenType := "\\omega"

def TokenType.Sin : TokenType := "\\sin"

def TokenType.Cos : TokenType := "\\cos"

def TokenType.Tan : TokenType := "\\tan"

def TokenType.Log : TokenType := "\\log"

def TokenType.Liter : TokenType := "L"

def TokenType.MilliLiter : TokenType := "mL"

def TokenType.Ell : TokenType := "\\ell"

def TokenType.At : TokenType := "@"

/-- Modelled from the spec: the enum members `Begin` and `End` are used by
parser.ts but the ast.ts revision defining them is absent from src/.  The
parser dispatches on them for the tokens produced by lexing the commands
`\begin` and `\end` through the unchecked string cast, so their string
values must be the literal command texts. -/
def TokenType.Begin : TokenType := "\\begin"

/-- Modelled from the spec: closing counterpart of `TokenType.Begin`. -/
def TokenType.End : TokenType := "\\end"

/-- Modelled from the spec: member set directly by the lexer for a literal
double backslash (line break); its string value is never produced by the
command cast (cast results start with a backslash followed by letters), so
any distinct value is behaviourally equivalent. -/
def TokenType.DoubleBackslash : TokenType := "DoubleBackslash"

/-- Modelled from the spec: line-break member dispatched together with
`DoubleBackslash`; never produced by the lexer itself. -/
def TokenType.Newline : TokenType := "Newline"

/-- Modelled from the spec: member set directly by the lexer for a blank
line (two consecutive newlines). -/
def TokenType.Paragraph : TokenType := "Paragraph"

/-- Modelled from the spec: fallback member set directly by the lexer for a
single unclassified character. -/
def TokenType.Character : TokenType := "Character"

/-- Modelled from the spec: big operators and limit members referenced by
render.ts; the values are the standard LaTeX command texts so the command
cast resolves them. -/
def TokenType.Infinity : TokenType := "\\infty"

/-- Modelled from the spec: summation big operator. -/
def TokenType.Summation : TokenType := "\\sum"

/-- Modelled from the spec: product big operator. -/
def TokenType.Product : TokenType := "\\prod"

/-- Modelled from the spec: integral big operator. -/
def TokenType.Integrate : TokenType := "\\int"

/-- Modelled from the spec: limit operator. -/
def TokenType.Limit : TokenType := "\\lim"

/-- The closed enumeration: every member of the `TokenType` string enum. -/
def tokenTypeValues : List TokenType :=
  [TokenType.Unknown, TokenType.Number, TokenType.Alphabet,
   TokenType.Subscript, TokenType.Superscript, TokenType.Plus,
   TokenType.Minus, TokenType.PlusMinus, TokenType.Modulus,
   TokenType.Percent, TokenType.Times, TokenType.Divide, TokenType.Equals,
   TokenType.Equivalent, TokenType.SquareRoot, TokenType.Dfrac,
   TokenType.LessThan, TokenType.GreaterThan, TokenType.LessThanOrEqual,
   TokenType.GreaterThanOrEqual, TokenType.Angle, TokenType.Triangle,
   TokenType.Circle, TokenType.Sim, TokenType.Simeq, TokenType.Square,
   TokenType.Bottom, TokenType.LParen, TokenType.RParen,
   TokenType.LBracket, TokenType.RBracket, TokenType.LBrace,
   TokenType.RBrace, TokenType.Comma, TokenType.Period, TokenType.Cdot,
   TokenType.Cdots, TokenType.Colon, TokenType.Semicolon, TokenType.Alpha,
   TokenType.Beta, TokenType.Gamma, TokenType.Delta, TokenType.Epsilon,
   TokenType.Zeta, TokenType.Eta, TokenType.Theta, TokenType.Iota,
   TokenType.Kappa, TokenType.Lambda, TokenType.Mu, TokenType.Nu,
   TokenType.Xi, TokenType.Omicron, TokenType.Pi, TokenType.Rho,
   TokenType.Sigma, TokenType.Tau, TokenType.Upsilon, TokenType.Phi,
   TokenType.Chi, TokenType.Psi, TokenType.Omega, TokenType.Sin,
   TokenType.Cos, TokenType.Tan, TokenType.Log, TokenType.Liter,
   TokenType.MilliLiter, TokenType.Ell, TokenType.At, TokenType.Begin,
   TokenType.End, TokenType.DoubleBackslash, TokenType.Newline,
   TokenType.Paragraph, TokenType.Character, TokenType.Infinity,
   TokenType.Summation, TokenType.Product, TokenType.Integrate,
   TokenType.Limit]

/-- lexer.ts `simpleCharMap`: single characters with a fixed token type. -/
def simpleCharMap (c : Char) : Option TokenType :=
  if c = '+' then some TokenType.Plus
  else if c = '-' then some TokenType.Minus
  else if c = '%' then some TokenType.Percent
  else if c = '=' then some TokenType.Equals
  else if c = '(' then some TokenType.LParen
  else if c = ')' then some TokenType.RParen
  else if c = '{' then some TokenType.LBrace
  else if c = '}' then some TokenType.RBrace
  else if c = '[' then some TokenType.LBracket
  else if c = ']' then some TokenType.RBracket
  else if c = '^' then some TokenType.Superscript
  else if c = '_' then some TokenType.Subscript
  else if c = '.' then some TokenType.Period
  else if c = ',' then some TokenType.Comma
  else if c = ':' then some TokenType.Colon
  else if c = ';' then some TokenType.Semicolon
  else if c = '>' then some TokenType.GreaterThan
  else if c = '<' then some TokenType.LessThan
  else if c = '@' then some TokenType.At
  else none

/-- A lexeme: text plus kind (ast.ts `Token`). -/
structure Token where
  token : String
  tokenType : TokenType
deriving DecidableEq, Repr

/-- The mutable fields of the TypeScript `Lexer` object (the input string is
passed separately since it never changes). -/
structure LexState where
  index : Nat
  token : String
  tokenType : TokenType
deriving DecidableEq, Repr

/-- The character class of the regex `[0-9]`. -/
def isAsciiDigit (c : Char) : Bool :=
  48 ≤ c.toNat && c.toNat ≤ 57

/-- The character class of the regex `[a-zA-Z]`. -/
def isAsciiLetter (c : Char) : Bool :=
  (97 ≤ c.toNat && c.toNat ≤ 122) || (65 ≤ c.toNat && c.toNat ≤ 90)

/-- An inner munch loop of `nextToken`: the maximal run of characters
satisfying `p` starting at position `i`, together with the cursor position
just past the run. -/
def munchWhile (p : Char → Bool) (input : List Char) (i : Nat) :
    List Char × Nat :=
  let r := (input.drop i).takeWhile p
  (r, i + r.length)

/-- lexer.ts `getTokenTypeFromCommand`: the source performs an unchecked
string-enum cast (`return command as TokenType`), which at runtime is the
identity on the string. -/
def getTokenTypeFromCommand (command : String) : TokenType :=
  command

/-- The body of `Lexer.nextToken` (the `while` loop), with explicit fuel for
the skip iterations.  Fuel `input.length - i` is exact: every recursive call
advances `i` by one and reduces the fuel by one, and the zero-fuel result
coincides with the loop-exit result (empty token, stale token type). -/
def nextTokenF (input : List Char) : Nat → Nat → TokenType → LexState
  | 0, i, prev => { index := i, token := "", tokenType := prev }
  | fuel + 1, i, prev =>
    match input.get? i with
    | none => { index := i, token := "", tokenType := prev }
    | some c =>
      if c = ' ' then nextTokenF input fuel (i + 1) prev
      else
        match simpleCharMap c with
        | some tt => { index := i + 1, token := String.mk [c], tokenType := tt }
        | none =>
          if c = '\n' then
            if input.get? (i + 1) = some '\n' then
              { index := i + 2, token := "\n\n",
                tokenType := TokenType.Paragraph }
            else nextTokenF input fuel (i + 1) prev
          else if c = '\\' then
            if input.get? (i + 1) = some '\\' then
              { index := i + 2, token := "\\\\",
                tokenType := TokenType.DoubleBackslash }
            else
              let m := munchWhile isAsciiLetter input (i + 1)
              { index := m.2, token := String.mk ('\\' :: m.1),
                tokenType := getTokenTypeFromCommand (String.mk ('\\' :: m.1)) }
          else if isAsciiDigit c then
            let m := munchWhile isAsciiDigit input i
            { index := m.2, token := String.mk m.1,
              tokenType := TokenType.Number }
          else if isAsciiLetter c then
            let m := munchWhile isAsciiLetter input i
            { index := m.2, token := String.mk m.1,
              tokenType := TokenType.Alphabet }
          else
            { index := i + 1, token := String.mk [c],
              tokenType := TokenType.Character }

/-- lexer.ts `Lexer.nextToken`. -/
def nextToken (input : List Char) (s : LexState) : LexState :=
  nextTokenF input (input.length - s.index) s.index s.tokenType

/-- lexer.ts `Lexer.hasMoreTokens`. -/
def hasMoreTokens (input : List Char) (s : LexState) : Bool :=
  s.index < input.length

/-- lexer.ts `Lexer.currentToken`. -/
def currentToken (s : LexState) : Token :=
  { token := s.token, tokenType := s.tokenType }

/-- The initial lexer state (the `Lexer` constructor). -/
def initLexState : LexState :=
  { index := 0, token := "", tokenType := TokenType.Unknown }

/-- ast.ts `LatexNode`: a node type tag, an optional token, an ordered child
list, and the two optional attachment slots. -/
inductive LatexNode where
  | mk (nodeType : String) (token : Option Token) (children : List LatexNode)
       (subscript : Option LatexNode) (superscript : Option LatexNode)

/-- Node type tag accessor. -/
def LatexNode.nodeType : LatexNode → String
  | .mk t _ _ _ _ => t

/-- Token accessor. -/
def LatexNode.token : LatexNode → Option Token
  | .mk _ tk _ _ _ => tk

/-- Children accessor. -/
def LatexNode.children : LatexNode → List LatexNode
  | .mk _ _ cs _ _ => cs

/-- Subscript slot accessor. -/
def LatexNode.subscript : LatexNode → Option LatexNode
  | .mk _ _ _ sb _ => sb

/-- Superscript slot accessor. -/
def LatexNode.superscript : LatexNode → Option LatexNode
  | .mk _ _ _ _ sp => sp

/-- Replace the child list (models in-place mutation of `children`). -/
def LatexNode.setChildren : LatexNode → List LatexNode → LatexNode
  | .mk t tk _ sb sp, cs => .mk t tk cs sb sp

/-- Append one child (models `children.push(...)`). -/
def LatexNode.pushChild (n : LatexNode) (c : LatexNode) : LatexNode :=
  n.setChildren (n.children ++ [c])

/-- Overwrite the subscript slot (models `node.subscript = ...`). -/
def LatexNode.setSubscript : LatexNode → Option LatexNode → LatexNode
  | .mk t tk cs _ sp, sb => .mk t tk cs sb sp

/-- Overwrite the superscript slot (models `node.superscript = ...`). -/
def LatexNode.setSuperscript : LatexNode → Option LatexNode → LatexNode
  | .mk t tk cs sb _, sp => .mk t tk cs sb sp

/-- ast.ts `NodeType.Plain`. -/
def NodeType.Plain : String := "Plain"

/-- ast.ts `NodeType.PGroup`. -/
def NodeType.PGroup : String := "Parenthesis"

/-- ast.ts `NodeType.BGroup`. -/
def NodeType.BGroup : String := "Bracket"

/-- ast.ts `NodeType.CBGroup`. -/
def NodeType.CBGroup : String := "CurlyBrace"

/-- Modelled from the spec: node type for a document root, used by
`createDocumentNode`; the ast.ts revision defining it is absent from src/. -/
def NodeType.Document : String := "Document"

/-- Modelled from the spec: node type for an environment block. -/
def NodeType.Environment : String := "Environment"

/-- Modelled from the spec: node type for a paragraph. -/
def NodeType.Paragraph : String := "Paragraph"

/-- Modelled from the spec: node type for a line. -/
def NodeType.Line : String := "Line"

/-- ast.ts `createNode` as called by parser.ts: node type, children, and an
optional token; both attachment slots start unset. -/
def createNode (nodeType : String) (children : List LatexNode)
    (token : Option Token) : LatexNode :=
  .mk nodeType token children none none

/-- ast.ts `createPlainNode`: a `Plain` node holding the lexeme, with no
children. -/
def createPlainNode (tk : Token) : LatexNode :=
  createNode NodeType.Plain [] (some tk)

/-- Modelled from the spec: ast.ts `createEnvironmentNode` is absent from
src/.  Per the spec an environment node carries the name token and is
pre-populated with one `Paragraph` containing one `Line`; parser.ts
(`pushEnvironment`) indexes `children[0].children[0]`, and the End case
reads `environmentNode.token.token`. -/
def createEnvironmentNode (envToken : Token) : LatexNode :=
  createNode NodeType.Environment
    [createNode NodeType.Paragraph [createNode NodeType.Line [] none] none]
    (some envToken)

/-- Modelled from the spec: ast.ts `createDocumentNode` is absent from src/.
Per the spec a document owns exactly one implicit environment named
"document", which owns one paragraph owning one line; the `ParseContext`
constructor indexes `children[0].children[0].children[0]`. -/
def createDocumentNode : LatexNode :=
  createNode NodeType.Document
    [createEnvironmentNode { token := "document",
                             tokenType := TokenType.Alphabet }]
    none

/-- One step of a path into the tree: the TypeScript stacks hold references
into the mutable tree; here a reference is the access path from the root,
through a child index or through one of the two attachment slots. -/
inductive Step where
  | child (i : Nat)
  | sub
  | sup
deriving DecidableEq, Repr

/-- A reference into the tree. -/
abbrev Path := List Step

/-- Dereference a path. -/
def getAt : Path → LatexNode → Option LatexNode
  | [], n => some n
  | Step.child i :: p, n =>
    match n.children.get? i with
    | some m => getAt p m
    | none => none
  | Step.sub :: p, n =>
    match n.subscript with
    | some m => getAt p m
    | none => none
  | Step.sup :: p, n =>
    match n.superscript with
    | some m => getAt p m
    | none => none

/-- Apply `f` to the element at index `i`, if any. -/
def listModify (f : α → α) : Nat → List α → List α
  | _, [] => []
  | 0, a :: as => f a :: as
  | n + 1, a :: as => a :: listModify f n as

/-- Mutate the node a path refers to (models a write through a reference
held by one of the stacks). -/
def modifyAt (f : LatexNode → LatexNode) : Path → LatexNode → LatexNode
  | [], n => f n
  | Step.child i :: p, n =>
    n.setChildren (listModify (fun m => modifyAt f p m) i n.children)
  | Step.sub :: p, n =>
    n.setSubscript (n.subscript.map (fun m => modifyAt f p m))
  | Step.sup :: p, n =>
    n.setSuperscript (n.superscript.map (fun m => modifyAt f p m))

/-- parser.ts `ParseContext`.  The stacks hold paths into `root` instead of
object references; the head of each list is the top of the TypeScript
array-based stack. -/
structure ParseContext where
  root : LatexNode
  environmentStacks : List Path
  stateStacks : List (Path × Option Nat)
  paragraphIndex : Nat
  lineIndex : Nat

/-- The `ParseContext` constructor: the environment stack starts with the
document's implicit environment (`rootNode.children[0]`) and the state
stack with that environment's first line
(`rootNode.children[0].children[0].children[0]`). -/
def initContext (rootNode : LatexNode) : ParseContext :=
  { root := rootNode,
    environmentStacks := [[Step.child 0]],
    stateStacks := [([Step.child 0, Step.child 0, Step.child 0], none)],
    paragraphIndex := 0,
    lineIndex := 0 }

/-- The path of the current innermost environment together with the node;
errors model the TypeScript crash on property access of `undefined`. -/
def environmentNodeOf (ctx : ParseContext) :
    Except String (Path × LatexNode) :=
  match ctx.environmentStacks.head? with
  | none => .error "TypeError"
  | some p =>
    match getAt p ctx.root with
    | some n => .ok (p, n)
    | none => .error "TypeError"

/-- The path of the current paragraph (`environmentNode.children[len-1]`)
with the node. -/
def paragraphNodeOf (ctx : ParseContext) :
    Except String (Path × LatexNode) :=
  match environmentNodeOf ctx with
  | .error e => .error e
  | .ok (envP, env) =>
    match env.children.get? (env.children.length - 1) with
    | none => .error "TypeError"
    | some para => .ok (envP ++ [Step.child (env.children.length - 1)], para)

/-- parser.ts `ParseContext.createNewLine`: append a fresh `Line` to the
current paragraph and reset the state stack to a single frame at it. -/
def createNewLine (ctx : ParseContext) : Except String ParseContext :=
  match paragraphNodeOf ctx with
  | .error e => .error e
  | .ok (paraP, para) =>
    let node := createNode NodeType.Line [] none
    .ok { ctx with
          root := modifyAt (fun n => n.pushChild node) paraP ctx.root,
          lineIndex := ctx.lineIndex + 1,
          stateStacks := [(paraP ++ [Step.child para.children.length], none)] }

/-- parser.ts `ParseContext.createNewParagraph`: append a fresh `Paragraph`
(holding one `Line`) to the current environment and reset the state stack to
a single frame at the new line. -/
def createNewParagraph (ctx : ParseContext) : Except String ParseContext :=
  match environmentNodeOf ctx with
  | .error e => .error e
  | .ok (envP, env) =>
    let node := createNode NodeType.Paragraph [createNode NodeType.Line [] none]
      none
    .ok { ctx with
          root := modifyAt (fun n => n.pushChild node) envP ctx.root,
          paragraphIndex := ctx.paragraphIndex + 1,
          lineIndex := 0,
          stateStacks :=
            [(envP ++ [Step.child env.children.length, Step.child 0], none)] }

/-- The current top state frame together with its node. -/
def topOf (ctx : ParseContext) :
    Except String (Path × Option Nat × LatexNode) :=
  match ctx.stateStacks.head? with
  | none => .error "TypeError"
  | some (p, arity) =>
    match getAt p ctx.root with
    | some n => .ok (p, arity, n)
    | none => .error "TypeError"

/-- parser.ts `ParseContext.pushEnvironment`: validates the node type,
pushes the environment on the environment stack, appends it as a child of
the current top node, and pushes a state frame at the environment's first
line. -/
def pushEnvironment (ctx : ParseContext) (node : LatexNode) :
    Except String ParseContext :=
  if node.nodeType ≠ NodeType.Environment then .error "Invalid node type"
  else
    match topOf ctx with
    | .error e => .error e
    | .ok (topP, _, topN) =>
      let envPath := topP ++ [Step.child topN.children.length]
      .ok { ctx with
            root := modifyAt (fun n => n.pushChild node) topP ctx.root,
            environmentStacks := envPath :: ctx.environmentStacks,
            stateStacks :=
              (envPath ++ [Step.child 0, Step.child 0], none)
                :: ctx.stateStacks }

/-- parser.ts `ParseContext.popEnvironment`: pops both stacks (popping an
empty JavaScript array is a no-op, as is `List.tail` on `[]`). -/
def popEnvironment (ctx : ParseContext) : ParseContext :=
  { ctx with
    environmentStacks := ctx.environmentStacks.tail,
    stateStacks := ctx.stateStacks.tail }

/-- parser.ts `ParseContext.popState`. -/
def popState (ctx : ParseContext) : ParseContext :=
  { ctx with stateStacks := ctx.stateStacks.tail }

/-- The tail of the `End` case of `parseLatex`, after the three lexemes of
`\end{name}` have been read: mismatching the innermost environment's name is
a structural error, otherwise both stacks are popped. -/
def processEnd (name : String) (ctx : ParseContext) :
    Except String ParseContext :=
  match environmentNodeOf ctx with
  | .error e => .error e
  | .ok (_, env) =>
    match env.token with
    | none => .error "TypeError"
    | some t =>
      if name ≠ t.token then .error "Mismatched environment"
      else .ok (popEnvironment ctx)

/-- The `Subscript` case of the dispatch: requires a previous sibling in the
current scope, attaches a fresh `Plain` node to its subscript slot
(overwriting any existing one) and pushes a frame with `numOfParams = 1`. -/
def subscriptCase (ls : LexState) (ctx : ParseContext) (topP : Path)
    (topN : LatexNode) : Except String ParseContext :=
  match topN.children.get? (topN.children.length - 1) with
  | none => .error "Subscript without previous node"
  | some _ =>
    .ok { ctx with
          root := modifyAt
            (fun m => m.setSubscript (some (createPlainNode (currentToken ls))))
            (topP ++ [Step.child (topN.children.length - 1)]) ctx.root,
          stateStacks :=
            (topP ++ [Step.child (topN.children.length - 1), Step.sub], some 1)
              :: ctx.stateStacks }

/-- The `Superscript` case of the dispatch, symmetric to `subscriptCase`. -/
def superscriptCase (ls : LexState) (ctx : ParseContext) (topP : Path)
    (topN : LatexNode) : Except String ParseContext :=
  match topN.children.get? (topN.children.length - 1) with
  | none => .error "Superscript without previous node"
  | some _ =>
    .ok { ctx with
          root := modifyAt
            (fun m => m.setSuperscript (some (createPlainNode (currentToken ls))))
            (topP ++ [Step.child (topN.children.length - 1)]) ctx.root,
          stateStacks :=
            (topP ++ [Step.child (topN.children.length - 1), Step.sup], some 1)
              :: ctx.stateStacks }

/-- The shared shape of the `LParen`, `LBracket`, `LBrace` (no arity) and
`SquareRoot`, `Dfrac` (arity 1 and 2) cases: append a new node carrying the
current token as a child of the current scope and push a frame for it. -/
def pushChildCase (nodeType : String) (arity : Option Nat) (ls : LexState)
    (ctx : ParseContext) (topP : Path) (topN : LatexNode) : ParseContext :=
  { ctx with
    root := modifyAt
      (fun n => n.pushChild (createNode nodeType [] (some (currentToken ls))))
      topP ctx.root,
    stateStacks := (topP ++ [Step.child topN.children.length], arity)
      :: ctx.stateStacks }

/-- The shared shape of the `RParen`, `RBracket`, `RBrace` cases: the current
scope node must carry the matching opening token or the mismatch error is
raised; on success the scope frame is popped. -/
def closeGroupCase (want : TokenType) (msg : String) (ctx : ParseContext)
    (topN : LatexNode) : Except String ParseContext :=
  if (topN.token.map Token.tokenType) ≠ some want then .error msg
  else .ok (popState ctx)

/-- The `Begin` case: the three following lexemes must be a left brace, an
alphabetic name and a right brace, otherwise a structural error; then the
new environment is pushed. -/
def beginCase (input : List Char) (ls : LexState) (ctx : ParseContext) :
    Except String ParseContext :=
  if (nextToken input ls).tokenType ≠ TokenType.LBrace then
    .error "\\begin command must have environment."
  else if (nextToken input (nextToken input ls)).tokenType
      ≠ TokenType.Alphabet then
    .error "\\begin command must have environment."
  else if (nextToken input (nextToken input (nextToken input ls))).tokenType
      ≠ TokenType.RBrace then
    .error "\\begin command must have environment."
  else
    pushEnvironment ctx
      (createEnvironmentNode (currentToken (nextToken input (nextToken input ls))))

/-- The `End` case: same three-lexeme expectation (with the same error
message as the `Begin` case, as in the source), then `processEnd`. -/
def endCase (input : List Char) (ls : LexState) (ctx : ParseContext) :
    Except String ParseContext :=
  if (nextToken input ls).tokenType ≠ TokenType.LBrace then
    .error "\\begin command must have environment."
  else if (nextToken input (nextToken input ls)).tokenType
      ≠ TokenType.Alphabet then
    .error "\\begin command must have environment."
  else if (nextToken input (nextToken input (nextToken input ls))).tokenType
      ≠ TokenType.RBrace then
    .error "\\begin command must have environment."
  else
    processEnd (currentToken (nextToken input (nextToken input ls))).token ctx

/-- The default case: append a `Plain` node for the current token to the
current scope, with no scope change. -/
def defaultCase (ls : LexState) (ctx : ParseContext) (topP : Path) :
    ParseContext :=
  { ctx with
    root := modifyAt (fun n => n.pushChild (createPlainNode (currentToken ls)))
      topP ctx.root }

/-- Pair a context result with the lexer state the loop continues from. -/
def withLs (x : LexState) : Except String ParseContext →
    Except String (LexState × ParseContext)
  | .error e => .error e
  | .ok c => .ok (x, c)

/-- The cases of the `switch (token.tokenType)` statement of `parseLatex`,
one constructor per `case` label group (plus the default). -/
inductive DKind where
  | subscriptK
  | superscriptK
  | beginK
  | endK
  | lparenK
  | rparenK
  | lbracketK
  | rbracketK
  | lbraceK
  | rbraceK
  | sqrtK
  | dfracK
  | newlineK
  | paragraphK
  | defaultK
deriving DecidableEq, Repr

/-- Which `case` label of the `switch` a token type selects: a TypeScript
`switch` on a string enum compares the scrutinee against each `case`
constant in order (`DoubleBackslash` and `Newline` share one body). -/
def classify (t : TokenType) : DKind :=
  if t = TokenType.Subscript then .subscriptK
  else if t = TokenType.Superscript then .superscriptK
  else if t = TokenType.Begin then .beginK
  else if t = TokenType.End then .endK
  else if t = TokenType.LParen then .lparenK
  else if t = TokenType.RParen then .rparenK
  else if t = TokenType.LBracket then .lbracketK
  else if t = TokenType.RBracket then .rbracketK
  else if t = TokenType.LBrace then .lbraceK
  else if t = TokenType.RBrace then .rbraceK
  else if t = TokenType.SquareRoot then .sqrtK
  else if t = TokenType.Dfrac then .dfracK
  else if t = TokenType.DoubleBackslash ∨ t = TokenType.Newline then .newlineK
  else if t = TokenType.Paragraph then .paragraphK
  else .defaultK

/-- The body of the `while` loop of parser.ts `parseLatex`, minus the final
auto-pop check: dispatch on the current token's type.  `ls` is the lexer
state after the `nextToken` call, so `currentToken` is `ls.token` /
`ls.tokenType`; the `Begin` and `End` cases advance the lexer three more
times (`nextToken` applied three times). -/
def processToken (input : List Char) (ls : LexState) (ctx : ParseContext) :
    Except String (LexState × ParseContext) :=
  match topOf ctx with
  | .error e => .error e
  | .ok (topP, _, topN) =>
    match classify (currentToken ls).tokenType with
    | .subscriptK => withLs ls (subscriptCase ls ctx topP topN)
    | .superscriptK => withLs ls (superscriptCase ls ctx topP topN)
    | .beginK =>
      withLs (nextToken input (nextToken input (nextToken input ls)))
        (beginCase input ls ctx)
    | .endK =>
      withLs (nextToken input (nextToken input (nextToken input ls)))
        (endCase input ls ctx)
    | .lparenK => .ok (ls, pushChildCase NodeType.PGroup none ls ctx topP topN)
    | .rparenK =>
      withLs ls (closeGroupCase TokenType.LParen "Mismatched Parenthesis" ctx topN)
    | .lbracketK => .ok (ls, pushChildCase NodeType.BGroup none ls ctx topP topN)
    | .rbracketK =>
      withLs ls (closeGroupCase TokenType.LBracket "Mismatched Bracket" ctx topN)
    | .lbraceK => .ok (ls, pushChildCase NodeType.CBGroup none ls ctx topP topN)
    | .rbraceK =>
      withLs ls (closeGroupCase TokenType.LBrace "Mismatched Brace" ctx topN)
    | .sqrtK => .ok (ls, pushChildCase NodeType.Plain (some 1) ls ctx topP topN)
    | .dfracK => .ok (ls, pushChildCase NodeType.Plain (some 2) ls ctx topP topN)
    | .newlineK => withLs ls (createNewLine ctx)
    | .paragraphK => withLs ls (createNewParagraph ctx)
    | .defaultK => .ok (ls, defaultCase ls ctx topP)

/-- The auto-pop check run after every lexeme (parser.ts lines 229-234): if
a top frame exists and its `numOfParams` equals its node's current child
count, pop exactly that frame.  A `none` arity never equals a count
(JavaScript `null === n` is false). -/
def autoPop (ctx : ParseContext) : ParseContext :=
  match ctx.stateStacks.head? with
  | none => ctx
  | some (topP, arity) =>
    match getAt topP ctx.root with
    | none => ctx
    | some topN =>
      if arity = some topN.children.length then popState ctx else ctx

/-- The `while (lexer.hasMoreTokens())` loop of `parseLatex`, with explicit
fuel.  Fuel `input.length` is always sufficient because every iteration
advances the lexer index by at least one; the zero-fuel result coincides
with the loop exit (the lemmas below prove this). -/
def parseLoopF (input : List Char) :
    Nat → LexState → ParseContext → Except String LatexNode
  | 0, _, ctx => .ok ctx.root
  | fuel + 1, ls, ctx =>
    if hasMoreTokens input ls then
      let ls1 := nextToken input ls
      match processToken input ls1 ctx with
      | .error e => .error e
      | .ok (ls2, ctx2) => parseLoopF input fuel ls2 (autoPop ctx2)
    else .ok ctx.root

/-- parser.ts `parseLatex`: build the document skeleton, run the loop, and
return the root node (or the first structural error). -/
def parseLatex (latex : String) : Except String LatexNode :=
  let input := latex.data
  parseLoopF input input.length initLexState (initContext createDocumentNode)

/-- The lexer cursor never moves backwards. -/
theorem nextTokenF_index_le (input : List Char) (fuel : Nat) :
    ∀ (i : Nat) (prev : TokenType), i ≤ (nextTokenF input fuel i prev).index := by
  induction fuel with
  | zero => intro i prev; exact Nat.le_refl i
  | succ fuel ih =>
    intro i prev
    simp only [nextTokenF]
    cases input.get? i with
    | none => exact Nat.le_refl i
    | some c =>
      simp only []
      split
      · exact Nat.le_trans (Nat.le_succ i) (ih (i + 1) prev)
      · cases simpleCharMap c with
        | some tt => exact Nat.le_succ i
        | none =>
          simp only []
          split
          · split
            · simp only [munchWhile]; omega
            · exact Nat.le_trans (Nat.le_succ i) (ih (i + 1) prev)
          · split
            · split
              · simp only [munchWhile]; omega
              · simp only [munchWhile]; omega
            · split
              · simp only [munchWhile]; omega
              · split
                · simp only [munchWhile]; omega
                · exact Nat.le_succ i

/-- While `hasMoreTokens` holds, every `nextToken` call strictly advances
the cursor by at least one position. -/
theorem nextToken_advance (input : List Char) (s : LexState)
    (h : s.index < input.length) :
    s.index + 1 ≤ (nextToken input s).index := by
  unfold nextToken
  obtain ⟨f, hf⟩ : ∃ f, input.length - s.index = f + 1 :=
    ⟨input.length - s.index - 1, by omega⟩
  rw [hf]
  simp only [nextTokenF]
  have hg : input.get? s.index = some (input.get ⟨s.index, h⟩) :=
    List.get?_eq_get h
  rw [hg]
  set c := input.get ⟨s.index, h⟩ with hc
  have hdrop : input.drop s.index = c :: input.drop (s.index + 1) := by
    rw [hc, List.get_eq_getElem]
    exact List.drop_eq_getElem_cons h
  simp only []
  repeat' split
  all_goals
    first
      | exact nextTokenF_index_le input f (s.index + 1) s.tokenType
      | (simp only [munchWhile]; omega)
      | (rename_i hcls
         simp only [munchWhile, hdrop, List.takeWhile_cons, hcls, if_true,
           List.length_cons]
         omega)

/-- Plain restatement of `nextTokenF_index_le` at the `nextToken` level. -/
theorem nextToken_index_le (input : List Char) (s : LexState) :
    s.index ≤ (nextToken input s).index :=
  nextTokenF_index_le input (input.length - s.index) s.index s.tokenType

/-- The lexer state paired by `withLs` is the one passed in. -/
theorem withLs_ok (x : LexState) (r : Except String ParseContext)
    (ls2 : LexState) (ctx2 : ParseContext)
    (h : withLs x r = .ok (ls2, ctx2)) : ls2 = x := by
  cases r with
  | error e => exact Except.noConfusion h
  | ok c =>
    injection h with hh
    injection hh with h1 h2
    exact h1.symm

/-- Dispatching one token never moves the lexer cursor backwards (the
`Begin` and `End` cases advance it, all other cases leave it unchanged). -/
theorem processToken_index_le (input : List Char) (ls : LexState)
    (ctx : ParseContext) (ls2 : LexState) (ctx2 : ParseContext)
    (h : processToken input ls ctx = .ok (ls2, ctx2)) :
    ls.index ≤ ls2.index := by
  have tri : ∀ s : LexState,
      s.index ≤ (nextToken input (nextToken input (nextToken input s))).index :=
    fun s =>
      le_trans (nextToken_index_le input s)
        (le_trans (nextToken_index_le input (nextToken input s))
          (nextToken_index_le input (nextToken input (nextToken input s))))
  unfold processToken at h
  split at h
  case _ => exact Except.noConfusion h
  rename_i topP arity topN heq
  cases hck : classify (currentToken ls).tokenType <;>
    simp only [hck] at h <;>
    first
      | exact Except.noConfusion h
      | (rw [withLs_ok _ _ _ _ h]; exact tri ls)
      | rw [withLs_ok _ _ _ _ h]
      | (injection h with hh
         injection hh with h1 h2
         subst h1
         exact Nat.le_refl _)

/-- The parse loop is insensitive to the exact amount of fuel as soon as the
fuel covers the remaining input: every iteration strictly advances the lexer
index, so at most `input.length - ls.index` iterations can run. -/
theorem parseLoopF_fuel (input : List Char) :
    ∀ (f1 f2 : Nat) (ls : LexState) (ctx : ParseContext),
      input.length - ls.index ≤ f1 → input.length - ls.index ≤ f2 →
      parseLoopF input f1 ls ctx = parseLoopF input f2 ls ctx := by
  intro f1
  induction f1 with
  | zero =>
    intro f2 ls ctx h1 h2
    have hcond : ¬ (hasMoreTokens input ls = true) := by
      simp only [hasMoreTokens, decide_eq_true_eq]
      omega
    cases f2 with
    | zero => rfl
    | succ f2 =>
      simp only [parseLoopF]
      rw [if_neg hcond]
  | succ f1 ih =>
    intro f2 ls ctx h1 h2
    by_cases hm : hasMoreTokens input ls = true
    · have hlt : ls.index < input.length := by
        simpa only [hasMoreTokens, decide_eq_true_eq] using hm
      cases f2 with
      | zero => omega
      | succ f2 =>
        simp only [parseLoopF]
        rw [if_pos hm, if_pos hm]
        cases hp : processToken input (nextToken input ls) ctx with
        | error e => rfl
        | ok pr =>
          obtain ⟨ls2, ctx2⟩ := pr
          have hadv := nextToken_advance input ls hlt
          have hmono :=
            processToken_index_le input (nextToken input ls) ctx ls2 ctx2 hp
          exact ih f2 ls2 (autoPop ctx2) (by omega) (by omega)
    · cases f2 with
      | zero =>
        simp only [parseLoopF]
        rw [if_neg hm]
      | succ f2 =>
        simp only [parseLoopF]
        rw [if_neg hm, if_neg hm]

/-- A digit character matches none of the `simpleCharMap` keys. -/
theorem digit_simpleCharMap_none (c : Char) (hd : isAsciiDigit c = true) :
    simpleCharMap c = none := by
  have hne : ∀ d : Char, isAsciiDigit d = false → ¬ (c = d) :=
    fun d hdf e => Bool.noConfusion ((e ▸ hd).symm.trans hdf)
  unfold simpleCharMap
  rw [if_neg (hne '+' (by decide)), if_neg (hne '-' (by decide)),
    if_neg (hne '%' (by decide)), if_neg (hne '=' (by decide)),
    if_neg (hne '(' (by decide)), if_neg (hne ')' (by decide)),
    if_neg (hne '{' (by decide)), if_neg (hne '}' (by decide)),
    if_neg (hne '[' (by decide)), if_neg (hne ']' (by decide)),
    if_neg (hne '^' (by decide)), if_neg (hne '_' (by decide)),
    if_neg (hne '.' (by decide)), if_neg (hne ',' (by decide)),
    if_neg (hne ':' (by decide)), if_neg (hne ';' (by decide)),
    if_neg (hne '>' (by decide)), if_neg (hne '<' (by decide)),
    if_neg (hne '@' (by decide))]

/-- C10: parsing the empty string returns, without error, a `Document` node
containing exactly one environment (named "document"), which contains
exactly one paragraph, which contains exactly one line with no children and
no subscript or superscript attachment. -/
theorem claim10_parse_empty :
    parseLatex "" =
      Except.ok (LatexNode.mk NodeType.Document none
        [LatexNode.mk NodeType.Environment
          (some { token := "document", tokenType := TokenType.Alphabet })
          [LatexNode.mk NodeType.Paragraph none
            [LatexNode.mk NodeType.Line none [] none none] none none]
          none none]
        none none) := by
  rfl

/-- C7: at any position holding an ASCII digit, `nextToken` produces exactly
one `Number` lexeme whose text is the entire maximal digit run, and the
cursor moves past the whole run (so `"123"` is one lexeme, not three). -/
theorem claim7_number_maximal_munch (input : List Char) (s : LexState)
    (c : Char) (hg : input.get? s.index = some c)
    (hd : isAsciiDigit c = true) :
    nextToken input s =
      { index := s.index + ((input.drop s.index).takeWhile isAsciiDigit).length,
        token := String.mk ((input.drop s.index).takeWhile isAsciiDigit),
        tokenType := TokenType.Number } := by
  have hlt : s.index < input.length := (List.get?_eq_some.mp hg).1
  unfold nextToken
  obtain ⟨f, hf⟩ : ∃ f, input.length - s.index = f + 1 :=
    ⟨input.length - s.index - 1, by omega⟩
  rw [hf]
  simp only [nextTokenF]
  rw [hg]
  simp only []
  have h1 : ¬ (c = ' ') := fun e => by subst e; exact absurd hd (by decide)
  have h3 : ¬ (c = '\n') := fun e => by subst e; exact absurd hd (by decide)
  have h4 : ¬ (c = '\\') := fun e => by subst e; exact absurd hd (by decide)
  rw [if_neg h1, digit_simpleCharMap_none c hd, if_neg h3, if_neg h4,
    if_pos hd]
  simp only [munchWhile]

/-- Witness for C7 at the input "123". -/
theorem claim7_witness :
    (['1', '2', '3'].get? initLexState.index = some '1')
    ∧ isAsciiDigit '1' = true
    ∧ nextToken ['1', '2', '3'] initLexState =
        { index := 3, token := "123", tokenType := TokenType.Number } :=
  ⟨by decide, by decide,
    claim7_number_maximal_munch ['1', '2', '3'] initLexState '1'
      (by decide) (by decide)⟩

/-- C9: `parseLatex` terminates on every finite input: while `hasMoreTokens`
holds, every `nextToken` call strictly advances the cursor, so the parse
loop stabilizes within `input.length` iterations — any fuel of at least the
input length gives the same result as `parseLatex`. -/
theorem claim9_terminates (latex : String) (f : Nat)
    (hf : latex.data.length ≤ f) (s : LexState)
    (hs : s.index < latex.data.length) :
    parseLoopF latex.data f initLexState (initContext createDocumentNode)
        = parseLatex latex
    ∧ s.index + 1 ≤ (nextToken latex.data s).index := by
  constructor
  · exact parseLoopF_fuel latex.data f latex.data.length initLexState
      (initContext createDocumentNode)
      (by simp only [initLexState]; omega)
      (by simp only [initLexState]; omega)
  · exact nextToken_advance latex.data s hs

/-- Witness for C9 at the input "ab" with fuel 2. -/
theorem claim9_witness :
    ("ab".data.length ≤ 2)
    ∧ (initLexState.index < "ab".data.length)
    ∧ (parseLoopF "ab".data 2 initLexState (initContext createDocumentNode)
          = parseLatex "ab"
        ∧ initLexState.index + 1 ≤ (nextToken "ab".data initLexState).index) :=
  ⟨by decide, by decide, claim9_terminates "ab" 2 (by decide) initLexState (by decide)⟩

/-- C6: when the assembler processes an `end` tag whose parsed name differs
from the innermost open environment's name, the parse aborts with the
structural error "Mismatched environment"; when the names are equal, both
the environment stack and the corresponding scope frame are popped. -/
theorem claim6_end_environment (ctx : ParseContext) (p : Path)
    (env : LatexNode) (t : Token) (name : String)
    (h1 : ctx.environmentStacks.head? = some p)
    (h2 : getAt p ctx.root = some env)
    (h3 : env.token = some t) :
    (name ≠ t.token → processEnd name ctx = .error "Mismatched environment")
    ∧ (name = t.token →
        processEnd name ctx =
          .ok { ctx with
                environmentStacks := ctx.environmentStacks.tail,
                stateStacks := ctx.stateStacks.tail }) := by
  unfold processEnd environmentNodeOf
  rw [h1]
  simp only []
  rw [h2]
  simp only []
  rw [h3]
  simp only []
  constructor
  · intro hne
    rw [if_pos hne]
  · intro he
    rw [if_neg (fun hn => hn he)]
    rfl

/-- Witness for C6 on the initial context (innermost environment name
"document"): the matching name pops both stacks. -/
theorem claim6_witness :
    ((initContext createDocumentNode).environmentStacks.head?
        = some [Step.child 0])
    ∧ (getAt [Step.child 0] (initContext createDocumentNode).root
        = some (createEnvironmentNode
            { token := "document", tokenType := TokenType.Alphabet }))
    ∧ ((createEnvironmentNode
          { token := "document", tokenType := TokenType.Alphabet }).token
        = some { token := "document", tokenType := TokenType.Alphabet })
    ∧ (("document" ≠ "document" →
          processEnd "document" (initContext createDocumentNode)
            = .error "Mismatched environment")
      ∧ ("document" = "document" →
          processEnd "document" (initContext createDocumentNode) =
            .ok { initContext createDocumentNode with
                  environmentStacks :=
                    (initContext createDocumentNode).environmentStacks.tail,
                  stateStacks :=
                    (initContext createDocumentNode).stateStacks.tail })) :=
  ⟨rfl, rfl, rfl,
    claim6_end_environment (initContext createDocumentNode) [Step.child 0]
      (createEnvironmentNode
        { token := "document", tokenType := TokenType.Alphabet })
      { token := "document", tokenType := TokenType.Alphabet }
      "document" rfl rfl rfl⟩

/-- C8: a blank line between "a" and "b" yields two paragraphs of one line
each, a literal double backslash yields one paragraph with two lines, and
each break resets the scope stack to a single frame for the fresh line. -/
theorem claim8_breaks :
    parseLatex (String.mk ['a', '\n', '\n', 'b']) =
      Except.ok (createNode NodeType.Document
        [createNode NodeType.Environment
          [createNode NodeType.Paragraph
            [createNode NodeType.Line
              [createPlainNode { token := "a", tokenType := TokenType.Alphabet }]
              none] none,
           createNode NodeType.Paragraph
            [createNode NodeType.Line
              [createPlainNode { token := "b", tokenType := TokenType.Alphabet }]
              none] none]
          (some { token := "document", tokenType := TokenType.Alphabet })]
        none)
    ∧ parseLatex (String.mk ['a', '\\', '\\', 'b']) =
      Except.ok (createNode NodeType.Document
        [createNode NodeType.Environment
          [createNode NodeType.Paragraph
            [createNode NodeType.Line
              [createPlainNode { token := "a", tokenType := TokenType.Alphabet }]
              none,
             createNode NodeType.Line
              [createPlainNode { token := "b", tokenType := TokenType.Alphabet }]
              none] none]
          (some { token := "document", tokenType := TokenType.Alphabet })]
        none)
    ∧ (∀ (ctx ctx1 : ParseContext), createNewLine ctx = .ok ctx1 →
        ctx1.stateStacks.length = 1)
    ∧ (∀ (ctx ctx1 : ParseContext), createNewParagraph ctx = .ok ctx1 →
        ctx1.stateStacks.length = 1) := by
  refine ⟨rfl, rfl, ?_, ?_⟩
  · intro ctx ctx1 h
    unfold createNewLine at h
    split at h
    · exact Except.noConfusion h
    · injection h with hh
      subst hh
      rfl
  · intro ctx ctx1 h
    unfold createNewParagraph at h
    split at h
    · exact Except.noConfusion h
    · injection h with hh
      subst hh
      rfl

/-- Witness for C8: the scope-stack reset applied to the initial context. -/
theorem claim8_witness :
    (createNewLine (initContext createDocumentNode) =
      .ok { root := createNode NodeType.Document
              [createNode NodeType.Environment
                [createNode NodeType.Paragraph
                  [createNode NodeType.Line [] none,
                   createNode NodeType.Line [] none] none]
                (some { token := "document", tokenType := TokenType.Alphabet })]
              none,
            environmentStacks := [[Step.child 0]],
            stateStacks := [([Step.child 0, Step.child 0, Step.child 1], none)],
            paragraphIndex := 0,
            lineIndex := 1 })
    ∧ ({ root := createNode NodeType.Document
           [createNode NodeType.Environment
             [createNode NodeType.Paragraph
               [createNode NodeType.Line [] none,
                createNode NodeType.Line [] none] none]
             (some { token := "document", tokenType := TokenType.Alphabet })]
           none,
         environmentStacks := [[Step.child 0]],
         stateStacks := [([Step.child 0, Step.child 0, Step.child 1], none)],
         paragraphIndex := 0,
         lineIndex := 1 : ParseContext }).stateStacks.length = 1 :=
  ⟨rfl,
    claim8_breaks.2.2.1 (initContext createDocumentNode) _ rfl⟩

/-- The tree produced for the input used by C1 (x, superscript, dfrac of 1
and 2, plus, y): the plus and the y end up as second and third child of the
superscript node, not on the line. -/
def claim1Tree : LatexNode :=
  createNode NodeType.Document
    [createNode NodeType.Environment
      [createNode NodeType.Paragraph
        [createNode NodeType.Line
          [LatexNode.mk NodeType.Plain
            (some { token := "x", tokenType := TokenType.Alphabet }) [] none
            (some (createNode NodeType.Plain
              [createNode NodeType.Plain
                [createNode NodeType.CBGroup
                  [createPlainNode { token := "1", tokenType := TokenType.Number }]
                  (some { token := "\x7b", tokenType := TokenType.LBrace }),
                 createNode NodeType.CBGroup
                  [createPlainNode { token := "2", tokenType := TokenType.Number }]
                  (some { token := "\x7b", tokenType := TokenType.LBrace })]
                (some { token := "\\dfrac", tokenType := TokenType.Dfrac }),
               createPlainNode { token := "+", tokenType := TokenType.Plus },
               createPlainNode { token := "y", tokenType := TokenType.Alphabet }]
              (some { token := "^", tokenType := TokenType.Superscript })))]
          none]
        none]
      (some { token := "document", tokenType := TokenType.Alphabet })]
    none

/-- C1 counterexample: on the input of the claim the completed parse puts
the "+" (and the following "y") inside the superscript node — the line keeps
exactly one child, "x" — because the filled superscript frame is never
popped: the auto-pop check runs once per lexeme and was spent on the inner
dfrac frame. -/
theorem claim1_counterexample :
    parseLatex (String.mk
        ['x', '^', '\\', 'd', 'f', 'r', 'a', 'c', '{', '1', '}', '{', '2',
         '}', '+', 'y'])
      = Except.ok claim1Tree
    ∧ ((getAt [Step.child 0, Step.child 0, Step.child 0] claim1Tree).map
        (fun n => n.children.map (fun m => m.token.map Token.token)))
      = some [some "x"]
    ∧ ((getAt [Step.child 0, Step.child 0, Step.child 0, Step.child 0,
          Step.sup] claim1Tree).map
        (fun n => n.children.map (fun m => m.token.map Token.token)))
      = some [some "\\dfrac", some "+", some "y"] :=
  ⟨rfl, rfl, rfl⟩

/-- C1 (amended): the post-lexeme arity check pops at most ONE frame — it
never cascades to an enclosing frame filled by the pop — so on the claim's
input the line ends with a single child and the "+" sits inside the
superscript node. -/
theorem claim1_single_auto_pop :
    (∀ ctx : ParseContext,
      (autoPop ctx).root = ctx.root
      ∧ ((autoPop ctx).stateStacks = ctx.stateStacks
        ∨ (autoPop ctx).stateStacks = ctx.stateStacks.tail))
    ∧ ((parseLatex (String.mk
          ['x', '^', '\\', 'd', 'f', 'r', 'a', 'c', '{', '1', '}', '{', '2',
           '}', '+', 'y'])).toOption.bind
        (getAt [Step.child 0, Step.child 0, Step.child 0])).map
      (fun n => n.children.length) = some 1 := by
  constructor
  · intro ctx
    unfold autoPop
    split
    · exact ⟨rfl, Or.inl rfl⟩
    · split
      · exact ⟨rfl, Or.inl rfl⟩
      · split
        · exact ⟨rfl, Or.inr rfl⟩
        · exact ⟨rfl, Or.inl rfl⟩
  · rfl

/-- C2 counterexample: for the unknown command the lexer emits the literal
text as the token type itself — the type equals "\foo", which is not the
`Unknown` member and lies outside the closed enumeration. -/
theorem claim2_counterexample :
    (nextToken ['\\', 'f', 'o', 'o'] initLexState).token = "\\foo"
    ∧ (nextToken ['\\', 'f', 'o', 'o'] initLexState).tokenType = "\\foo"
    ∧ (nextToken ['\\', 'f', 'o', 'o'] initLexState).tokenType
        ≠ TokenType.Unknown
    ∧ "\\foo" ∉ tokenTypeValues := by
  refine ⟨by decide, by decide, by decide, by decide⟩

/-- C2 (amended): for every backslash-plus-letters command, the emitted
lexeme's kind IS its literal text (`getTokenTypeFromCommand` is the
unchecked string cast), so an out-of-table command yields a kind outside the
closed enumeration rather than the `Unknown` member. -/
theorem claim2_command_kind_is_literal (input : List Char) (s : LexState)
    (h1 : input.get? s.index = some '\\')
    (h2 : input.get? (s.index + 1) ≠ some '\\') :
    nextToken input s =
      { index := s.index + 1
          + ((input.drop (s.index + 1)).takeWhile isAsciiLetter).length,
        token := String.mk
          ('\\' :: (input.drop (s.index + 1)).takeWhile isAsciiLetter),
        tokenType := String.mk
          ('\\' :: (input.drop (s.index + 1)).takeWhile isAsciiLetter) } := by
  have hlt : s.index < input.length := (List.get?_eq_some.mp h1).1
  unfold nextToken
  obtain ⟨f, hf⟩ : ∃ f, input.length - s.index = f + 1 :=
    ⟨input.length - s.index - 1, by omega⟩
  rw [hf]
  simp only [nextTokenF]
  rw [h1]
  simp only []
  rw [if_neg (show ¬ ('\\' = ' ') by decide)]
  rw [show simpleCharMap '\\' = none from rfl]
  simp only []
  rw [if_neg (show ¬ ('\\' = '\n') by decide)]
  simp only [if_true]
  rw [if_neg h2]
  simp only [munchWhile, getTokenTypeFromCommand]

/-- Witness for the amended C2 at the unknown command input. -/
theorem claim2_witness :
    (['\\', 'f', 'o', 'o'].get? initLexState.index = some '\\')
    ∧ (['\\', 'f', 'o', 'o'].get? (initLexState.index + 1) ≠ some '\\')
    ∧ nextToken ['\\', 'f', 'o', 'o'] initLexState =
        { index := 4, token := "\\foo", tokenType := "\\foo" } :=
  ⟨by decide, by decide,
    claim2_command_kind_is_literal ['\\', 'f', 'o', 'o'] initLexState
      (by decide) (by decide)⟩

/-- The tree produced for the unterminated input "(a": the open paren group
simply stays on the line, holding "a". -/
def claim3Tree : LatexNode :=
  createNode NodeType.Document
    [createNode NodeType.Environment
      [createNode NodeType.Paragraph
        [createNode NodeType.Line
          [createNode NodeType.PGroup
            [createPlainNode { token := "a", tokenType := TokenType.Alphabet }]
            (some { token := "(", tokenType := TokenType.LParen })]
          none]
        none]
      (some { token := "document", tokenType := TokenType.Alphabet })]
    none

/-- C3 counterexample: the parse of "(a" SUCCEEDS — no structural error is
raised at end of input. -/
theorem claim3_counterexample : (parseLatex "(a").isOk = true := by
  rfl

/-- C3 (amended): for the unterminated input "(a" the parser returns the
partial tree, with the unclosed paren group left on the line containing
"a"; the non-trivial scope stack at end of input is silently tolerated. -/
theorem claim3_returns_partial_tree :
    parseLatex "(a" = Except.ok claim3Tree := by
  rfl

/-- The tree produced for the input with a braced superscript argument:
the brace group is kept as the superscript's only child. -/
def claim4TreeBrace : LatexNode :=
  createNode NodeType.Document
    [createNode NodeType.Environment
      [createNode NodeType.Paragraph
        [createNode NodeType.Line
          [LatexNode.mk NodeType.Plain
            (some { token := "x", tokenType := TokenType.Alphabet }) [] none
            (some (createNode NodeType.Plain
              [createNode NodeType.CBGroup
                [createPlainNode { token := "2", tokenType := TokenType.Number }]
                (some { token := "\x7b", tokenType := TokenType.LBrace })]
              (some { token := "^", tokenType := TokenType.Superscript })))]
          none]
        none]
      (some { token := "document", tokenType := TokenType.Alphabet })]
    none

/-- The tree produced for "x^2": the superscript's only child is the plain
number node. -/
def claim4TreeBare : LatexNode :=
  createNode NodeType.Document
    [createNode NodeType.Environment
      [createNode NodeType.Paragraph
        [createNode NodeType.Line
          [LatexNode.mk NodeType.Plain
            (some { token := "x", tokenType := TokenType.Alphabet }) [] none
            (some (createNode NodeType.Plain
              [createPlainNode { token := "2", tokenType := TokenType.Number }]
              (some { token := "^", tokenType := TokenType.Superscript })))]
          none]
        none]
      (some { token := "document", tokenType := TokenType.Alphabet })]
    none

/-- C4 counterexample: with braces, the superscript's single child is a
curly-brace group node (not the plain "2"), so the two trees are NOT
isomorphic in the claimed sense — an extra intervening group node exists. -/
theorem claim4_counterexample :
    ((parseLatex (String.mk ['x', '^', '{', '2', '}'])).toOption.bind
        (getAt [Step.child 0, Step.child 0, Step.child 0, Step.child 0,
          Step.sup])).map
      (fun n => n.children.map LatexNode.nodeType) = some [NodeType.CBGroup]
    ∧ NodeType.CBGroup ≠ NodeType.Plain :=
  ⟨rfl, by decide⟩

/-- C4 (amended): "x^2" attaches a superscript whose single child is the
plain "2", while with braces the superscript's single child is a brace
group containing "2" — equal up to that one intervening group node. -/
theorem claim4_superscript_trees :
    parseLatex "x^2" = Except.ok claim4TreeBare
    ∧ parseLatex (String.mk ['x', '^', '{', '2', '}'])
        = Except.ok claim4TreeBrace :=
  ⟨rfl, rfl⟩

/-- The tree at the end of parsing "x^2^3": only "3" remains under the
superscript. -/
def claim5Tree : LatexNode :=
  createNode NodeType.Document
    [createNode NodeType.Environment
      [createNode NodeType.Paragraph
        [createNode NodeType.Line
          [LatexNode.mk NodeType.Plain
            (some { token := "x", tokenType := TokenType.Alphabet }) [] none
            (some (createNode NodeType.Plain
              [createPlainNode { token := "3", tokenType := TokenType.Number }]
              (some { token := "^", tokenType := TokenType.Superscript })))]
          none]
        none]
      (some { token := "document", tokenType := TokenType.Alphabet })]
    none

/-- The tree after the first three lexemes of "x^2^3" (fuel 3 runs exactly
three loop iterations): the superscript set by the first "^" holds "2". -/
def claim5MidTree : LatexNode :=
  createNode NodeType.Document
    [createNode NodeType.Environment
      [createNode NodeType.Paragraph
        [createNode NodeType.Line
          [LatexNode.mk NodeType.Plain
            (some { token := "x", tokenType := TokenType.Alphabet }) [] none
            (some (createNode NodeType.Plain
              [createPlainNode { token := "2", tokenType := TokenType.Number }]
              (some { token := "^", tokenType := TokenType.Superscript })))]
          none]
        none]
      (some { token := "document", tokenType := TokenType.Alphabet })]
    none

/-- C5 counterexample: in "x^2^3" the second "^" DOES reassign the already
set superscript slot of "x": the completed parse leaves only "3" under the
superscript, the earlier "2" attachment is discarded. -/
theorem claim5_counterexample :
    parseLatex "x^2^3" = Except.ok claim5Tree
    ∧ ((getAt [Step.child 0, Step.child 0, Step.child 0, Step.child 0,
          Step.sup] claim5Tree).map
        (fun n => n.children.map (fun m => m.token.map Token.token)))
      = some [some "3"] :=
  ⟨rfl, rfl⟩

/-- C5 (amended): within the single parse of "x^2^3" the superscript slot of
"x" is first assigned a node holding "2" (state after three loop
iterations) and later overwritten to hold "3" (completed parse): an
attachment slot CAN be reassigned by a later lexeme of the same parse. -/
theorem claim5_slot_reassigned :
    parseLoopF "x^2^3".data 3 initLexState (initContext createDocumentNode)
      = Except.ok claim5MidTree
    ∧ parseLatex "x^2^3" = Except.ok claim5Tree :=
  ⟨rfl, rfl⟩

end Larender
